/-
Verification of the STS transit-network simulator (models, agent threads,
message broker) against its specification.

The Python sources are shallowly embedded: object references become natural
number ids, object fields become structure fields, and each method becomes a
state-passing function on an explicit world state.  Python lists become
`List ℕ` of ids, Python sets become `Finset ℕ`.  Logging, sleeps and thread
scheduling are not modelled; each agent step is a pure function on the world.
-/
import Mathlib

namespace STS

/-- Passenger status constants of `Passenger` (`models/passenger.py`):
STATUS_WAITING, STATUS_BOARDING, STATUS_IN_BUS, STATUS_ALIGHTING,
STATUS_ARRIVED. -/
inductive PStatus
  | waiting
  | boarding
  | inBus
  | alighting
  | arrived
deriving DecidableEq

/-- A passenger's destination (`Passenger.destination`): either a Stop or a
Station, referenced by id. -/
inductive Dest
  | stop (id : Nat)
  | station (id : Nat)
deriving DecidableEq

/-- The fields of `Passenger` used by the boarding/alighting operations.
`current_route`/`buses_taken`/`stops_visited` are bookkeeping fields that
`board_bus`/`alight_bus` also write. -/
structure PassengerState where
  status : PStatus
  current_stop : Option Nat
  current_bus : Option Nat
  destination : Dest
  stops_visited : List Nat
  buses_taken : List Nat
  current_route_p : Option Nat
deriving DecidableEq

/-- The fields of `Bus` (`models/bus.py`) used by the claims. -/
structure BusState where
  capacity : Nat
  passenger_list : List Nat
  current_stop : Option Nat
  current_route : Option Nat
deriving DecidableEq

/-- The fields of `Stop` (`models/stop.py`).  `stop_list` is the list
inherited from `Origin.__init__` (`models/origin.py`), which every Stop has
(initialised to `[]`); `capacity` is initialised to 50.  `current_buses` is a
Python set of buses, embedded as a `Finset` of bus ids, and `bus_queue` is a
FIFO deque, embedded as a list with head = front. -/
structure StopState where
  capacity : Nat
  passenger_list : List Nat
  waiting_passengers : List Nat
  stop_list : List Nat
  is_occupied : Bool
  bus_queue : List Nat
  current_buses : Finset Nat
deriving DecidableEq

/-- The world state: passengers, buses and stops keyed by id;
`stations n` is `Station(n).stop_list` and `routes n` is
`Route(n).stop_list`. -/
structure SimState where
  passengers : Nat → PassengerState
  buses : Nat → BusState
  stops : Nat → StopState
  stations : Nat → List Nat
  routes : Nat → List Nat

/-- Update one passenger's fields. -/
def SimState.setPassengerF (w : SimState) (p : Nat) (f : PassengerState → PassengerState) : SimState :=
  { w with passengers := Function.update w.passengers p (f (w.passengers p)) }

/-- Update one bus's fields. -/
def SimState.setBusF (w : SimState) (b : Nat) (f : BusState → BusState) : SimState :=
  { w with buses := Function.update w.buses b (f (w.buses b)) }

/-- Update one stop's fields. -/
def SimState.setStopF (w : SimState) (s : Nat) (f : StopState → StopState) : SimState :=
  { w with stops := Function.update w.stops s (f (w.stops s)) }

/-- `destination.stop_list` as the Python attribute access resolves it.
Because `Origin.__init__` gives every Stop and every Station a `stop_list`
attribute, `hasattr(destination, 'stop_list')` is true for both variants; for
a Stop destination it is the stop's own associated-stop list (empty as
constructed), not the singleton of the stop itself. -/
def destStopList (w : SimState) : Dest → List Nat
  | Dest.stop i => (w.stops i).stop_list
  | Dest.station i => w.stations i

/-- `Bus.can_accept_passengers(count)` (`bus.py`):
`len(self.passenger_list) + count <= self.capacity`.  All call sites in the
claims use the default `count = 1`. -/
def can_accept_passengers (w : SimState) (b : Nat) (count : Nat) : Bool :=
  (w.buses b).passenger_list.length + count ≤ (w.buses b).capacity

/-- `Bus.is_full` (`bus.py`): `len(self.passenger_list) >= self.capacity`. -/
def bus_is_full (w : SimState) (b : Nat) : Bool :=
  (w.buses b).capacity ≤ (w.buses b).passenger_list.length

/-- `Bus.add_passenger` (`bus.py`): on success appends to the bus's
`passenger_list` and sets `passenger.current_bus = self` (it does not touch
`passenger.status` or `passenger.current_stop`). -/
def bus_add_passenger (w : SimState) (b p : Nat) : SimState × Bool :=
  if can_accept_passengers w b 1 then
    (((w.setBusF b (fun bus => { bus with passenger_list := bus.passenger_list ++ [p] })).setPassengerF
        p (fun q => { q with current_bus := some b })), true)
  else (w, false)

/-- `Bus.remove_passenger` (`bus.py`): if present, removes the passenger from
the bus's list (`list.remove` removes the first occurrence) and sets
`passenger.current_bus = None` (nothing else on the passenger changes). -/
def bus_remove_passenger (w : SimState) (b p : Nat) : SimState × Bool :=
  if p ∈ (w.buses b).passenger_list then
    (((w.setBusF b (fun bus => { bus with passenger_list := bus.passenger_list.erase p })).setPassengerF
        p (fun q => { q with current_bus := none })), true)
  else (w, false)

/-- `Stop.remove_passenger` (`stop.py`): if the passenger is present, removes
it from `passenger_list` and (when waiting) from `waiting_passengers`.  The
Python code guards the waiting-list removal with a membership test;
`List.erase` on an absent element is the identity, which is the same effect. -/
def stop_remove_passenger (w : SimState) (s p : Nat) : SimState × Bool :=
  if p ∈ (w.stops s).passenger_list then
    (w.setStopF s (fun st =>
      { st with passenger_list := st.passenger_list.erase p,
                waiting_passengers := st.waiting_passengers.erase p }), true)
  else (w, false)

/-- `Stop.add_passenger` (`stop.py`): capacity-guarded; appends to both
`passenger_list` and `waiting_passengers` and sets
`passenger.current_stop = self`. -/
def stop_add_passenger (w : SimState) (s p : Nat) : SimState × Bool :=
  if (w.stops s).passenger_list.length + 1 ≤ (w.stops s).capacity then
    (((w.setStopF s (fun st =>
        { st with passenger_list := st.passenger_list ++ [p],
                  waiting_passengers := st.waiting_passengers ++ [p] })).setPassengerF
        p (fun q => { q with current_stop := some s })), true)
  else (w, false)

/-- `Passenger.is_at_destination` (`passenger.py`): uses `isinstance` checks —
for a Stop destination, identity with `current_stop`; for a Station
destination, membership of `current_stop` in the station's `stop_list`. -/
def is_at_destination (w : SimState) (p : Nat) : Bool :=
  match (w.passengers p).current_stop with
  | none => false
  | some s =>
    match (w.passengers p).destination with
    | Dest.stop d => s = d
    | Dest.station st => s ∈ w.stations st

/-- `Passenger.board_bus` (`passenger.py`).  Guarded on `status == WAITING`
and the bus's capacity; on success it sets `current_bus`, appends the old
stop to `stops_visited` and the bus to `buses_taken`, copies the bus's route,
and moves the status WAITING → BOARDING → IN_BUS (the transient BOARDING
write happens inside the call; the function's result state has IN_BUS).
It does NOT clear `current_stop` and does not touch the bus's
`passenger_list`. -/
def board_bus (w : SimState) (p b : Nat) : SimState × Bool :=
  if (w.passengers p).status ≠ PStatus.waiting then (w, false)
  else if ¬ can_accept_passengers w b 1 then (w, false)
  else
    (w.setPassengerF p (fun q =>
      { q with status := PStatus.inBus,
               current_bus := some b,
               stops_visited := q.stops_visited ++
                 (match q.current_stop with | some s => [s] | none => []),
               buses_taken := q.buses_taken ++ [b],
               current_route_p := (w.buses b).current_route }), true)

/-- `Passenger.alight_bus` (`passenger.py`).  Guarded on `status == IN_BUS`;
sets `current_bus = None`, `current_stop = stop`, logs the stop, and moves the
status IN_BUS → ALIGHTING → WAITING, then — checking `is_at_destination` after
`current_stop` was updated — to ARRIVED when at the destination. -/
def alight_bus (w : SimState) (p s : Nat) : SimState × Bool :=
  if (w.passengers p).status ≠ PStatus.inBus then (w, false)
  else
    let w1 := w.setPassengerF p (fun q =>
      { q with status := PStatus.waiting,
               current_bus := none,
               current_stop := some s,
               stops_visited := q.stops_visited ++ [s] })
    if is_at_destination w1 p then
      (w1.setPassengerF p (fun q => { q with status := PStatus.arrived }), true)
    else (w1, true)

/-- `Stop.bus_arrival` (`stop.py`): when occupied, the bus is appended to the
rear of the FIFO `bus_queue` and the call returns False; otherwise the stop
becomes occupied, the bus joins `current_buses`, and the call returns True. -/
def bus_arrival (s : StopState) (b : Nat) : StopState × Bool :=
  if s.is_occupied then ({ s with bus_queue := s.bus_queue ++ [b] }, false)
  else ({ s with is_occupied := true, current_buses := insert b s.current_buses }, true)

/-- `Stop.bus_departure` (`stop.py`): removes the bus from `current_buses` if
admitted; if the admitted set became empty, clears the occupancy flag and, if
the queue is non-empty, immediately admits the queue head (occupancy set
again). -/
def bus_departure (s : StopState) (b : Nat) : StopState × Bool :=
  if b ∈ s.current_buses then
    let s1 := { s with current_buses := s.current_buses.erase b }
    if s1.current_buses = ∅ then
      match s1.bus_queue with
      | [] => ({ s1 with is_occupied := false }, true)
      | h :: t =>
          ({ s1 with is_occupied := true, current_buses := insert h s1.current_buses,
                     bus_queue := t }, true)
    else (s1, true)
  else (s, false)

/-- `StopThread._manage_bus_queue` (`core/stop_thread.py`): if the stop is not
occupied and the queue is non-empty, pop the head and run `bus_arrival` on
it. -/
def manage_bus_queue (s : StopState) : StopState :=
  match s.bus_queue with
  | [] => s
  | h :: t => if s.is_occupied then s else (bus_arrival { s with bus_queue := t } h).1

/-- `Stop.bus_arrival` lifted to the world state. -/
def SimState.busArrivalAt (w : SimState) (s b : Nat) : SimState × Bool :=
  let r := bus_arrival (w.stops s) b
  (w.setStopF s (fun _ => r.1), r.2)

/-- `Stop.bus_departure` lifted to the world state. -/
def SimState.busDepartureAt (w : SimState) (s b : Nat) : SimState × Bool :=
  let r := bus_departure (w.stops s) b
  (w.setStopF s (fun _ => r.1), r.2)

/-- `BusThread._should_passenger_alight` (`core/bus_thread.py`): destination
identical to the current stop, or — since `hasattr(destination, 'stop_list')`
is always true (see `destStopList`) — the current stop is in the
destination's `stop_list`. -/
def should_passenger_alight (w : SimState) (b p : Nat) : Bool :=
  match (w.buses b).current_stop with
  | none => false
  | some cur =>
    match (w.passengers p).destination with
    | Dest.stop d => d = cur || cur ∈ (w.stops d).stop_list
    | Dest.station st => cur ∈ w.stations st

/-- `BusThread._handle_alighting` (`core/bus_thread.py`): collect the
passengers of the bus that should alight (computed on the list as it is at
entry), then `Bus.remove_passenger` each of them.  Note that it never calls
`Passenger.alight_bus`: the passengers' `status` and `current_stop` are left
untouched; only `current_bus` is cleared. -/
def handle_alighting (w : SimState) (b : Nat) : SimState :=
  let alighting := (w.buses b).passenger_list.filter (fun p => should_passenger_alight w b p)
  alighting.foldl (fun w' p => (bus_remove_passenger w' b p).1) w

/-- The remaining forward stops of the bus's current route:
`route_stops[current_index:]` where `current_index = route_stops.index(current_stop)`
in `BusThread._can_accept_passenger`.  When the bus has no route the caller
returns False (modelled as the empty remainder); when `current_stop` is
absent from the route, `list.index` would raise ValueError — the claims about
this step assume the current stop is on the route. -/
def remaining_forward_stops (w : SimState) (b : Nat) : List Nat :=
  match (w.buses b).current_route, (w.buses b).current_stop with
  | some r, some cur => (w.routes r).drop ((w.routes r).indexOf cur)
  | _, _ => []

/-- `BusThread._can_accept_passenger` (`core/bus_thread.py`).  Because
`hasattr(passenger.destination, 'stop_list')` is always true (every Stop and
Station inherits `stop_list` from `Origin`), the station branch is taken for
every destination and the `elif passenger.destination in route_stops[...]`
branch for plain Stop destinations is unreachable: the test is whether
`destination.stop_list` meets the remaining forward stops. -/
def can_accept_passenger (w : SimState) (b p : Nat) : Bool :=
  match (w.buses b).current_route with
  | none => false
  | some _ =>
    (destStopList w (w.passengers p).destination).any
      (fun s => s ∈ remaining_forward_stops w b)

/-- The loop body of `BusThread._handle_boarding` over a snapshot of the
waiting list (the code iterates `waiting_passengers.copy()`): for each
passenger, if the bus still has room and `_can_accept_passenger` holds, call
`Bus.add_passenger` and, on success, `Stop.remove_passenger` on the bus's
current stop. -/
def boarding_loop (b : Nat) : List Nat → SimState → SimState
  | [], w => w
  | p :: rest, w =>
    if can_accept_passengers w b 1 && can_accept_passenger w b p then
      let r := bus_add_passenger w b p
      if r.2 then
        let w2 :=
          match (r.1.buses b).current_stop with
          | some cur => (stop_remove_passenger r.1 cur p).1
          | none => r.1
        boarding_loop b rest w2
      else boarding_loop b rest r.1
    else boarding_loop b rest w

/-- `BusThread._handle_boarding` (`core/bus_thread.py`): no-op when the bus is
full; otherwise run the boarding loop over a copy of the current stop's
waiting list.  (The enclosing `_handle_passenger_exchange` guarantees
`current_stop` is set.) -/
def handle_boarding (w : SimState) (b : Nat) : SimState :=
  if bus_is_full w b then w
  else
    match (w.buses b).current_stop with
    | none => w
    | some cur => boarding_loop b ((w.stops cur).waiting_passengers) w

/-- `BusThread._handle_passenger_exchange`: guard on `current_stop`, then
alighting, then boarding. -/
def handle_passenger_exchange (w : SimState) (b : Nat) : SimState :=
  match (w.buses b).current_stop with
  | none => w
  | some _ => handle_boarding (handle_alighting w b) b

/-- The stop chosen by `BusThread._move_to_next_stop`: `route_stops[index+1]`
when the current index is not the last, otherwise `route_stops[0]`
(wrap-around). -/
def nextStopOnRoute (stops : List Nat) (cur : Nat) : Nat :=
  if stops.indexOf cur < stops.length - 1 then stops.getD (stops.indexOf cur + 1) cur
  else stops.getD 0 cur

/-- Events recorded while moving, each carrying the bus's `current_stop` as it
is at the moment the stop is notified. -/
inductive MoveEvent
  | departure (stopId : Nat) (busStopAtNotify : Option Nat)
  | arrival (stopId : Nat) (busStopAtNotify : Option Nat)
deriving DecidableEq

/-- `BusThread._move_to_next_stop` (`core/bus_thread.py`): requires a route
and a current stop; empty route returns False.  If the current stop is on the
route, choose the next stop (wrapping at the end), notify the old stop of
departure BEFORE `current_stop` changes, update `current_stop`, then notify
the new stop of arrival.  If the current stop is not on the route (the
ValueError handler), reset to the first stop with no notification.  The
returned event list records the notifications in order together with the
bus's `current_stop` at each notification. -/
def move_to_next_stop (w : SimState) (b : Nat) : SimState × Bool × List MoveEvent :=
  match (w.buses b).current_route, (w.buses b).current_stop with
  | some r, some cur =>
    let stops := w.routes r
    if stops = [] then (w, false, [])
    else if cur ∈ stops then
      let next := nextStopOnRoute stops cur
      let e1 := MoveEvent.departure cur ((w.buses b).current_stop)
      let w1 := (w.busDepartureAt cur b).1
      let w2 := w1.setBusF b (fun bus => { bus with current_stop := some next })
      let e2 := MoveEvent.arrival next ((w2.buses b).current_stop)
      let w3 := (w2.busArrivalAt next b).1
      (w3, true, [e1, e2])
    else
      (w.setBusF b (fun bus => { bus with current_stop := some (stops.getD 0 cur) }), true, [])
  | _, _ => (w, false, [])

/-- One iteration of `BusThread.run`'s loop body (logging and randomized
sleeps are pacing only and not modelled): guard that the bus has a route and a
current stop, exchange passengers at the current stop, then advance. -/
def bus_agent_cycle (w : SimState) (b : Nat) : SimState :=
  match (w.buses b).current_route, (w.buses b).current_stop with
  | some _, some _ => (move_to_next_stop (handle_passenger_exchange w b) b).1
  | _, _ => w

/-- Message kinds of `MessageType` (`project_2/core/message_broker.py`). -/
inductive MessageType
  | busArrival
  | busDeparture
  | passengerBoarding
  | passengerAlighting
  | routeUpdate
  | scheduleUpdate
  | systemAlert
  | stopStatus
  | stationStatus
  | capacityUpdate
deriving DecidableEq, Fintype

/-- A broker `Message`: its kind and sender id (sender ids are strings such
as `"Bus-3"` in the source, embedded as naturals); the payload dictionary and
the wall-clock timestamp play no role in the ordering/delivery claims, but a
tag is kept so that distinct publishes of the same kind stay distinct. -/
structure BMessage where
  mtype : MessageType
  sender_id : Nat
  tag : Nat
deriving DecidableEq

/-- The broker's `_subscribers` dictionary: for each message kind, a Python
`set` of subscribers, embedded as a `Finset` of subscriber ids.  A Python set
carries no insertion order: iterating it yields SOME duplicate-free
enumeration of its elements, not the subscription order. -/
def Subscribers := MessageType → Finset Nat

/-- `MessageBroker.subscribe(subscriber, message_types)`: add the subscriber
to the set for each listed kind (`set.add`, hence idempotent). -/
def subscribe (reg : Subscribers) (sub : Nat) (types : List MessageType) : Subscribers :=
  types.foldl (fun r t => Function.update r t (insert sub (r t))) reg

/-- The registry obtained by running a history of `subscribe` calls (in
order) against the initially empty `_subscribers` map. -/
def mkRegistry (hist : List (Nat × List MessageType)) : Subscribers :=
  hist.foldl (fun r e => subscribe r e.1 e.2) (fun _ => ∅)

/-- A subscriber occurs in the history subscribed to kind `k`. -/
def subscribedIn (hist : List (Nat × List MessageType)) (s : Nat) (k : MessageType) : Prop :=
  ∃ e ∈ hist, e.1 = s ∧ k ∈ e.2

instance (hist : List (Nat × List MessageType)) (s : Nat) (k : MessageType) :
    Decidable (subscribedIn hist s k) :=
  List.decidableBEx _ hist

/-- Modelled from the spec: "in subscription order, to every current
subscriber of that kind" — the subscribers of kind `k` listed in the order of
their first subscription to `k` in the history.  This is the spec's claimed
delivery order, to be compared with what the code's set iteration allows. -/
def subscriptionOrderSpec (hist : List (Nat × List MessageType)) (k : MessageType) : List Nat :=
  ((hist.filter (fun e => k ∈ e.2)).map Prod.fst).dedup

/-- A list is a possible iteration order of a Python set: duplicate-free and
containing exactly the set's elements. -/
def validEnum (s : Finset Nat) (l : List Nat) : Prop :=
  l.Nodup ∧ l.toFinset = s

instance (s : Finset Nat) (l : List Nat) : Decidable (validEnum s l) :=
  inferInstanceAs (Decidable (_ ∧ _))

/-- `MessageBroker.publish` (`message_broker.py`): a non-blocking FIFO
enqueue (`queue.Queue.put`) of the message at the rear of the single queue. -/
def publish (q : List BMessage) (m : BMessage) : List BMessage :=
  q ++ [m]

/-- The queue contents after a sequence of `publish` calls, in call order. -/
def publishSeq (ms : List BMessage) : List BMessage :=
  ms.foldl publish []

/-- The deliveries `_process_messages` makes for one dequeued message: it
iterates the subscriber set of the message's kind (`enum` fixes the iteration
order chosen for each kind's set) and calls `on_message` on each.  A delivery
is recorded as (message, subscriber). -/
def deliverOne (enum : MessageType → List Nat) (m : BMessage) : List (BMessage × Nat) :=
  (enum m.mtype).map (fun s => (m, s))

/-- The delivery trace of the single consumer loop over a queue: messages are
dequeued one at a time in FIFO order and each is delivered fully (to all its
subscribers) before the next is dequeued. -/
def processAll (enum : MessageType → List Nat) (q : List BMessage) : List (BMessage × Nat) :=
  q.flatMap (fun m => deliverOne enum m)

/-- The sequence of messages one subscriber observes in a delivery trace. -/
def observed (enum : MessageType → List Nat) (s : Nat) (q : List BMessage) : List BMessage :=
  (processAll enum q).filterMap (fun ms => if ms.2 = s then some ms.1 else none)

/-- The payload fields of a `PASSENGER_ALIGHTING` message that
`MessageStopAdapter._handle_passenger_alighting_confirmation` reads:
`stop_id`, `passenger_id`, `bus_id`, and whether `data['status']` equals
`'confirmed'`. -/
structure AlightConfMsg where
  stop_id : Nat
  passenger_id : Nat
  bus_id : Nat
  confirmed : Bool

/-- `MessageStopAdapter._handle_passenger_alighting_confirmation`
(`project_2/core/message_components.py`), for the adapter of stop `sid`.
Guards: the message's stop id matches and its status is 'confirmed'; the
Python falsy test `if not passenger_id` drops id 0; the seed lookup of the
passenger always succeeds in the model (`passengers` is total).  If the
passenger is not already in the stop's `passenger_list`, the handler writes
`passenger.status` UNCONDITIONALLY — `"arrived"` when the destination is this
very stop object, `"waiting"` otherwise — then sets `current_stop`, calls
`Stop.add_passenger`, and finally appends to `waiting_passengers` unless
already there (it is already there when `add_passenger` succeeded). -/
def handle_alighting_confirmation (w : SimState) (sid : Nat) (m : AlightConfMsg) : SimState :=
  if m.stop_id ≠ sid ∨ m.confirmed = false then w
  else if m.passenger_id = 0 then w
  else if m.passenger_id ∈ (w.stops sid).passenger_list then w
  else
    let isDest := (w.passengers m.passenger_id).destination = Dest.stop sid
    let w1 := w.setPassengerF m.passenger_id (fun q =>
      { q with status := if isDest then PStatus.arrived else PStatus.waiting,
               current_stop := some sid })
    let w2 := (stop_add_passenger w1 sid m.passenger_id).1
    if ¬ isDest ∧ m.passenger_id ∉ (w2.stops sid).waiting_passengers then
      w2.setStopF sid (fun st =>
        { st with waiting_passengers := st.waiting_passengers ++ [m.passenger_id] })
    else w2

/-- One edge of the specified status chain
WAITING → BOARDING → IN_BUS → ALIGHTING → \x7bWAITING | ARRIVED\x7d. -/
inductive ChainEdge : PStatus → PStatus → Prop
  | wb : ChainEdge PStatus.waiting PStatus.boarding
  | bi : ChainEdge PStatus.boarding PStatus.inBus
  | ia : ChainEdge PStatus.inBus PStatus.alighting
  | aw : ChainEdge PStatus.alighting PStatus.waiting
  | aa : ChainEdge PStatus.alighting PStatus.arrived

/-- A (possibly empty) path along the status chain. -/
inductive ChainPath : PStatus → PStatus → Prop
  | refl (a : PStatus) : ChainPath a a
  | head {a b c : PStatus} : ChainEdge a b → ChainPath b c → ChainPath a c

/-- The boarding/alighting operations named by the passenger-location claim,
each applicable to arbitrary ids. -/
inductive PassengerOpStep (w : SimState) : SimState → Prop
  | board (p b : Nat) : PassengerOpStep w (board_bus w p b).1
  | busAdd (b p : Nat) : PassengerOpStep w (bus_add_passenger w b p).1
  | stopRemove (s p : Nat) : PassengerOpStep w (stop_remove_passenger w s p).1
  | alight (p s : Nat) : PassengerOpStep w (alight_bus w p s).1

/-- Reachability by the boarding/alighting operations. -/
def PassengerOpReach : SimState → SimState → Prop :=
  Relation.ReflTransGen PassengerOpStep

/-- `Bus.add_passenger` / `Bus.remove_passenger` calls on a fixed bus `b`,
with arbitrary passengers. -/
inductive BusSeqStep (b : Nat) (w : SimState) : SimState → Prop
  | add (p : Nat) : BusSeqStep b w (bus_add_passenger w b p).1
  | remove (p : Nat) : BusSeqStep b w (bus_remove_passenger w b p).1

/-- Reachability by add/remove sequences on bus `b`. -/
def BusSeqReach (b : Nat) : SimState → SimState → Prop :=
  Relation.ReflTransGen (BusSeqStep b)

/-- The operations that drive a stop's admission state: `bus_arrival`,
`bus_departure` (from bus agents) and the stop agent's queue drain. -/
inductive StopAdmStep (s : StopState) : StopState → Prop
  | arrive (b : Nat) : StopAdmStep s (bus_arrival s b).1
  | depart (b : Nat) : StopAdmStep s (bus_departure s b).1
  | drain : StopAdmStep s (manage_bus_queue s)

/-- Reachability of stop admission states. -/
def StopAdmReach : StopState → StopState → Prop :=
  Relation.ReflTransGen StopAdmStep

/-- The claim's passenger-location predicate: exactly one of `current_stop`
and `current_bus` is set, unless the passenger has ARRIVED. -/
def exclusiveLoc (p : PassengerState) : Prop :=
  p.status ≠ PStatus.arrived →
    ((p.current_stop ≠ none ∧ p.current_bus = none) ∨
     (p.current_stop = none ∧ p.current_bus ≠ none))

instance (p : PassengerState) : Decidable (exclusiveLoc p) :=
  inferInstanceAs (Decidable (_ → _))

/-- The weakened location predicate that the code maintains: at least one of
`current_stop` and `current_bus` is set. -/
def atLeastOneLoc (p : PassengerState) : Prop :=
  p.current_stop ≠ none ∨ p.current_bus ≠ none

instance (p : PassengerState) : Decidable (atLeastOneLoc p) :=
  inferInstanceAs (Decidable (_ ∨ _))

/-- Modelled from the spec: the claim's "destination stop set (the stop
itself, or the stops of a destination station)", to be compared with the
`destination.stop_list` the code actually consults. -/
def destStopsSpec (w : SimState) : Dest → List Nat
  | Dest.stop i => [i]
  | Dest.station i => w.stations i

/-- A freshly constructed `Stop` (`Stop.__init__`): empty lists, capacity 50,
not occupied, empty queue and admitted set. -/
def emptyStop : StopState :=
  { capacity := 50, passenger_list := [], waiting_passengers := [], stop_list := [],
    is_occupied := false, bus_queue := [], current_buses := ∅ }

/-- The passenger of end-to-end scenario A: WAITING at stop 0 (stop A) with
destination stop 1 (stop B). -/
def passengerA : PassengerState :=
  { status := PStatus.waiting, current_stop := some 0, current_bus := none,
    destination := Dest.stop 1, stops_visited := [], buses_taken := [],
    current_route_p := none }

/-- End-to-end scenario A: stops A = 0 and B = 1, one route 0 = [A, B], one
bus 0 of capacity 2 admitted at A, one passenger 0 waiting at A destined for
stop B. -/
def scenarioA : SimState :=
  { passengers := fun _ => passengerA,
    buses := fun _ =>
      { capacity := 2, passenger_list := [], current_stop := some 0, current_route := some 0 },
    stops := fun n =>
      if n = 0 then
        { emptyStop with passenger_list := [0], waiting_passengers := [0],
                         is_occupied := true, current_buses := {0} }
      else emptyStop,
    stations := fun _ => [],
    routes := fun _ => [0, 1] }

/-- A state exercising the boarding filter: bus 0 (capacity 2, empty) at stop
0 on route 0 = [0, 2]; passenger 0 waits at stop 0 with destination stop 1,
and stop 1's own associated `stop_list` contains stop 2. -/
def wBoardCex : SimState :=
  { passengers := fun _ => passengerA,
    buses := fun _ =>
      { capacity := 2, passenger_list := [], current_stop := some 0, current_route := some 0 },
    stops := fun n =>
      if n = 0 then { emptyStop with passenger_list := [0], waiting_passengers := [0] }
      else if n = 1 then { emptyStop with stop_list := [2] }
      else emptyStop,
    stations := fun _ => [],
    routes := fun _ => [0, 2] }

/-- A state with passenger 7 already ARRIVED (at its destination stop 9),
away from stop 5. -/
def wArrived : SimState :=
  { passengers := fun _ =>
      { status := PStatus.arrived, current_stop := some 9, current_bus := none,
        destination := Dest.stop 9, stops_visited := [], buses_taken := [],
        current_route_p := none },
    buses := fun _ =>
      { capacity := 2, passenger_list := [], current_stop := none, current_route := none },
    stops := fun _ => emptyStop,
    stations := fun _ => [],
    routes := fun _ => [] }

/-- A confirmed `PASSENGER_ALIGHTING` message for passenger 7 at stop 5. -/
def msgAlight75 : AlightConfMsg :=
  { stop_id := 5, passenger_id := 7, bus_id := 3, confirmed := true }

/-- A subscription history: subscriber 5 subscribes to BUS_ARRIVAL, then
subscriber 3 does. -/
def histC4 : List (Nat × List MessageType) :=
  [(5, [MessageType.busArrival]), (3, [MessageType.busArrival])]

/-- A world with a single bus 0 of capacity 1, empty. -/
def wCap1 : SimState :=
  { passengers := fun _ => passengerA,
    buses := fun _ =>
      { capacity := 1, passenger_list := [], current_stop := some 0, current_route := some 0 },
    stops := fun _ => emptyStop,
    stations := fun _ => [],
    routes := fun _ => [0, 1] }


@[simp]
theorem setPassengerF_passengers (w : SimState) (p : Nat) (f : PassengerState → PassengerState) (q : Nat) :
    (w.setPassengerF p f).passengers q = if q = p then f (w.passengers p) else w.passengers q := by
  simp [SimState.setPassengerF, Function.update]

@[simp]
theorem setPassengerF_buses (w : SimState) (p : Nat) (f : PassengerState → PassengerState) :
    (w.setPassengerF p f).buses = w.buses := rfl

@[simp]
theorem setPassengerF_stops (w : SimState) (p : Nat) (f : PassengerState → PassengerState) :
    (w.setPassengerF p f).stops = w.stops := rfl

@[simp]
theorem setPassengerF_stations (w : SimState) (p : Nat) (f : PassengerState → PassengerState) :
    (w.setPassengerF p f).stations = w.stations := rfl

@[simp]
theorem setPassengerF_routes (w : SimState) (p : Nat) (f : PassengerState → PassengerState) :
    (w.setPassengerF p f).routes = w.routes := rfl

@[simp]
theorem setBusF_buses (w : SimState) (b : Nat) (f : BusState → BusState) (q : Nat) :
    (w.setBusF b f).buses q = if q = b then f (w.buses b) else w.buses q := by
  simp [SimState.setBusF, Function.update]

@[simp]
theorem setBusF_passengers (w : SimState) (b : Nat) (f : BusState → BusState) :
    (w.setBusF b f).passengers = w.passengers := rfl

@[simp]
theorem setBusF_stops (w : SimState) (b : Nat) (f : BusState → BusState) :
    (w.setBusF b f).stops = w.stops := rfl

@[simp]
theorem setBusF_stations (w : SimState) (b : Nat) (f : BusState → BusState) :
    (w.setBusF b f).stations = w.stations := rfl

@[simp]
theorem setBusF_routes (w : SimState) (b : Nat) (f : BusState → BusState) :
    (w.setBusF b f).routes = w.routes := rfl

@[simp]
theorem setStopF_stops (w : SimState) (s : Nat) (f : StopState → StopState) (q : Nat) :
    (w.setStopF s f).stops q = if q = s then f (w.stops s) else w.stops q := by
  simp [SimState.setStopF, Function.update]

@[simp]
theorem setStopF_passengers (w : SimState) (s : Nat) (f : StopState → StopState) :
    (w.setStopF s f).passengers = w.passengers := rfl

@[simp]
theorem setStopF_buses (w : SimState) (s : Nat) (f : StopState → StopState) :
    (w.setStopF s f).buses = w.buses := rfl

@[simp]
theorem setStopF_stations (w : SimState) (s : Nat) (f : StopState → StopState) :
    (w.setStopF s f).stations = w.stations := rfl

@[simp]
theorem setStopF_routes (w : SimState) (s : Nat) (f : StopState → StopState) :
    (w.setStopF s f).routes = w.routes := rfl

/-- Claim C1: in the two-stop scenario (stops A, B neighbours; route [A, B];
bus of capacity 2 at A; passenger waiting at A destined for B), the claim
expects the passenger to be IN_BUS after one full bus-agent cycle and ARRIVED
after the bus advances.  Evaluating the embedded bus-agent cycle shows the
code leaves the passenger WAITING at A with the bus's passenger list empty:
`_can_accept_passenger` always takes the `stop_list` branch (every Stop
inherits a — here empty — `stop_list` from `Origin`), so the passenger never
boards, and the bus-agent boarding/alighting path never writes
`passenger.status` at all. -/
theorem scenarioA_passenger_never_boards :
    ((handle_passenger_exchange scenarioA 0).passengers 0).status = PStatus.waiting
    ∧ ((bus_agent_cycle scenarioA 0).buses 0).current_stop = some 1
    ∧ ((bus_agent_cycle scenarioA 0).passengers 0).status ≠ PStatus.inBus
    ∧ ((bus_agent_cycle scenarioA 0).passengers 0).status = PStatus.waiting
    ∧ (0 : Nat) ∈ ((bus_agent_cycle scenarioA 0).stops 0).waiting_passengers
    ∧ ((bus_agent_cycle scenarioA 0).buses 0).passenger_list = []
    ∧ ((bus_agent_cycle (bus_agent_cycle scenarioA 0) 0).passengers 0).status ≠ PStatus.arrived := by
  decide

theorem bus_add_passenger_full (w : SimState) (b p : Nat)
    (h : (w.buses b).capacity ≤ (w.buses b).passenger_list.length) :
    bus_add_passenger w b p = (w, false) := by
  unfold bus_add_passenger
  rw [if_neg]
  simp only [can_accept_passengers, decide_eq_true_eq]
  omega

theorem busSeqStep_preserves_capacity (b : Nat) (v v' : SimState)
    (hstep : BusSeqStep b v v')
    (hinv : (v.buses b).passenger_list.length ≤ (v.buses b).capacity) :
    (v'.buses b).passenger_list.length ≤ (v'.buses b).capacity := by
  cases hstep with
  | add p =>
    unfold bus_add_passenger
    split
    case isTrue hc =>
      simp only [can_accept_passengers, decide_eq_true_eq] at hc
      simpa using hc
    case isFalse => simpa using hinv
  | remove p =>
    unfold bus_remove_passenger
    split
    case isTrue =>
      simp only [setPassengerF_buses, setBusF_buses, if_pos rfl]
      exact le_trans (List.Sublist.length_le (List.erase_sublist _ _)) hinv
    case isFalse => simpa using hinv

/-- Claim C3: starting from an empty bus, every state reached by a sequence
of `add_passenger` / `remove_passenger` calls keeps the passenger count
within capacity, and `add_passenger` on a full bus returns False and leaves
the state unchanged. -/
theorem bus_capacity_invariant (b p : Nat) (w w' : SimState)
    (hreach : BusSeqReach b w w') (h0 : (w.buses b).passenger_list = []) :
    (w'.buses b).passenger_list.length ≤ (w'.buses b).capacity
    ∧ ((w'.buses b).capacity ≤ (w'.buses b).passenger_list.length →
        bus_add_passenger w' b p = (w', false)) := by
  refine ⟨?_, fun hfull => bus_add_passenger_full w' b p hfull⟩
  induction hreach with
  | refl => simp [h0]
  | tail _ hstep ih => exact busSeqStep_preserves_capacity b _ _ hstep ih

/-- Witness: a capacity-1 bus after one successful add is at capacity, and a
further add is refused without changing the state. -/
theorem bus_capacity_invariant_witness :
    (((bus_add_passenger wCap1 0 0).1.buses 0).passenger_list.length
        ≤ ((bus_add_passenger wCap1 0 0).1.buses 0).capacity)
    ∧ (((bus_add_passenger wCap1 0 0).1.buses 0).capacity
          ≤ ((bus_add_passenger wCap1 0 0).1.buses 0).passenger_list.length →
        bus_add_passenger (bus_add_passenger wCap1 0 0).1 0 5
          = ((bus_add_passenger wCap1 0 0).1, false)) :=
  bus_capacity_invariant 0 5 wCap1 (bus_add_passenger wCap1 0 0).1
    (Relation.ReflTransGen.single (BusSeqStep.add 0)) rfl

theorem passengerOpStep_preserves_loc (v v' : SimState) (hstep : PassengerOpStep v v')
    (hinv : ∀ q, atLeastOneLoc (v.passengers q)) :
    ∀ q, atLeastOneLoc (v'.passengers q) := by
  intro q
  cases hstep with
  | board p b =>
    unfold board_bus
    split
    case isTrue => exact hinv q
    split
    case isTrue => exact hinv q
    simp only [setPassengerF_passengers]
    by_cases hq : q = p
    · simp [hq, atLeastOneLoc]
    · simpa [hq] using hinv q
  | busAdd b p =>
    unfold bus_add_passenger
    split
    case isFalse => exact hinv q
    simp only [setPassengerF_passengers, setBusF_passengers]
    by_cases hq : q = p
    · simp [hq, atLeastOneLoc]
    · simpa [hq] using hinv q
  | stopRemove s p =>
    unfold stop_remove_passenger
    split
    case isFalse => exact hinv q
    simpa using hinv q
  | alight p s =>
    unfold alight_bus
    split
    case isTrue => exact hinv q
    dsimp only
    split
    · simp only [setPassengerF_passengers]
      by_cases hq : q = p
      · simp [hq, atLeastOneLoc]
      · simpa [hq] using hinv q
    · simp only [setPassengerF_passengers]
      by_cases hq : q = p
      · simp [hq, atLeastOneLoc]
      · simpa [hq] using hinv q

/-- Claim C2 counterexample: from a state satisfying the claimed
"exactly one of current_stop/current_bus" predicate, a single `board_bus`
step yields a passenger (not ARRIVED) with BOTH `current_stop` and
`current_bus` set — `board_bus` never clears `current_stop`. -/
theorem board_bus_sets_both_locations :
    PassengerOpStep scenarioA (board_bus scenarioA 0 0).1
    ∧ exclusiveLoc (scenarioA.passengers 0)
    ∧ ((board_bus scenarioA 0 0).1.passengers 0).current_stop = some 0
    ∧ ((board_bus scenarioA 0 0).1.passengers 0).current_bus = some 0
    ∧ ((board_bus scenarioA 0 0).1.passengers 0).status ≠ PStatus.arrived
    ∧ ¬ exclusiveLoc ((board_bus scenarioA 0 0).1.passengers 0) :=
  ⟨PassengerOpStep.board 0 0, by decide, by decide, by decide, by decide, by decide⟩

/-- Claim C2 (amended): in every state reachable by the boarding and
alighting operations from a state where each passenger has at least one of
`current_stop`/`current_bus` set, every passenger still has at least one of
them set (boarding sets `current_bus` without clearing the — now stale —
`current_stop`, so the claimed "exactly one" strengthening fails). -/
theorem passenger_location_at_least_one (w w' : SimState)
    (hreach : PassengerOpReach w w')
    (h0 : ∀ q, atLeastOneLoc (w.passengers q)) :
    ∀ q, atLeastOneLoc (w'.passengers q) := by
  induction hreach with
  | refl => exact h0
  | tail _ hstep ih => exact passengerOpStep_preserves_loc _ _ hstep ih

/-- Witness: the location disjunction after a concrete boarding step. -/
theorem passenger_location_at_least_one_witness :
    atLeastOneLoc ((board_bus scenarioA 0 0).1.passengers 0) :=
  passenger_location_at_least_one scenarioA (board_bus scenarioA 0 0).1
    (Relation.ReflTransGen.single (PassengerOpStep.board 0 0)) (fun _ => Or.inl (fun h => Option.noConfusion h)) 0

theorem chainPath_from_arrived (x : PStatus) (h : ChainPath PStatus.arrived x) :
    x = PStatus.arrived := by
  cases h with
  | refl => rfl
  | head e _ => cases e

/-- Claim C9 counterexample: the stop adapter's alighting-confirmation
handler writes `passenger.status` without looking at the current status: on
an already-ARRIVED passenger (whose destination is elsewhere) it performs the
transition ARRIVED → WAITING, which lies outside the claimed chain — so
ARRIVED is not terminal and the chain is not respected by the adapters. -/
theorem adapter_resets_arrived_passenger :
    (wArrived.passengers 7).status = PStatus.arrived
    ∧ ((handle_alighting_confirmation wArrived 5 msgAlight75).passengers 7).status = PStatus.waiting
    ∧ ¬ ChainPath PStatus.arrived PStatus.waiting :=
  ⟨by decide, by decide, fun h => absurd (chainPath_from_arrived _ h) (by decide)⟩

/-- Claim C9 (amended): the passenger's own operations respect the chain —
`board_bus` moves the status along WAITING → BOARDING → IN_BUS, `alight_bus`
along IN_BUS → ALIGHTING → WAITING or IN_BUS → ALIGHTING → ARRIVED, and
`Bus.add_passenger` / `Stop.remove_passenger` leave it unchanged (so, under
these operations alone, ARRIVED is terminal); the message adapters'
alighting-confirmation handler is exempt, as it can set WAITING or ARRIVED
from any prior status. -/
theorem passenger_own_ops_follow_chain (w : SimState) (p b s : Nat) :
    ChainPath ((w.passengers p).status) (((board_bus w p b).1.passengers p).status)
    ∧ ChainPath ((w.passengers p).status) (((alight_bus w p s).1.passengers p).status)
    ∧ (((bus_add_passenger w b p).1.passengers p).status) = (w.passengers p).status
    ∧ (((stop_remove_passenger w s p).1.passengers p).status) = (w.passengers p).status := by
  refine ⟨?_, ?_, ?_, ?_⟩
  · unfold board_bus
    split
    case isTrue => exact ChainPath.refl _
    split
    case isTrue => exact ChainPath.refl _
    case isFalse hw _ =>
      simp only [ne_eq, not_not] at hw
      simp only [setPassengerF_passengers, if_pos rfl, hw]
      exact ChainPath.head ChainEdge.wb (ChainPath.head ChainEdge.bi (ChainPath.refl _))
  · unfold alight_bus
    split
    case isTrue => exact ChainPath.refl _
    case isFalse hw =>
      simp only [ne_eq, not_not] at hw
      dsimp only
      split
      · simp only [setPassengerF_passengers, if_pos rfl, hw]
        exact ChainPath.head ChainEdge.ia (ChainPath.head ChainEdge.aa (ChainPath.refl _))
      · simp only [setPassengerF_passengers, if_pos rfl, hw]
        exact ChainPath.head ChainEdge.ia (ChainPath.head ChainEdge.aw (ChainPath.refl _))
  · unfold bus_add_passenger
    split <;> simp
  · unfold stop_remove_passenger
    split <;> simp

theorem stopAdmStep_preserves (s s' : StopState) (hstep : StopAdmStep s s')
    (hinv : (s.is_occupied = true ↔ s.current_buses ≠ ∅) ∧ s.current_buses.card ≤ 1) :
    (s'.is_occupied = true ↔ s'.current_buses ≠ ∅) ∧ s'.current_buses.card ≤ 1 := by
  cases hstep with
  | arrive b =>
    unfold bus_arrival
    split
    case isTrue => exact hinv
    case isFalse hocc =>
      have hempty : s.current_buses = ∅ := by
        by_contra hne
        exact hocc (hinv.1.mpr hne)
      simp [hempty]
  | depart b =>
    unfold bus_departure
    split
    case isFalse => exact hinv
    case isTrue hmem =>
      dsimp only
      split
      case isTrue herase =>
        split
        · simp [herase]
        · simp [herase]
      case isFalse herase =>
        have hne : s.current_buses ≠ ∅ := by
          intro h
          exact herase (by simp [h])
        constructor
        · simpa [hinv.1.mpr hne] using herase
        · exact le_trans (Finset.card_le_card (Finset.erase_subset _ _)) hinv.2
  | drain =>
    unfold manage_bus_queue
    split
    case h_1 => exact hinv
    case h_2 h t heq =>
      split
      case isTrue => exact hinv
      case isFalse hocc =>
        have hempty : s.current_buses = ∅ := by
          by_contra hne
          exact hocc (hinv.1.mpr hne)
        unfold bus_arrival
        rw [if_neg (by simpa using hocc)]
        simp [hempty]

theorem stopAdm_invariant (s0 s : StopState) (hreach : StopAdmReach s0 s)
    (h1 : s0.is_occupied = false) (h2 : s0.current_buses = ∅) :
    (s.is_occupied = true ↔ s.current_buses ≠ ∅) ∧ s.current_buses.card ≤ 1 := by
  induction hreach with
  | refl => simp [h1, h2]
  | tail _ hstep ih => exact stopAdmStep_preserves _ _ hstep ih

/-- Claim C8: in every admission state reachable from a fresh stop (admitted
set empty, occupancy flag false) via `bus_arrival`, `bus_departure` and the
stop agent's queue drain, the occupancy flag is true exactly when the
admitted set is non-empty; and when the sole admitted bus departs while the
FIFO queue is non-empty, the queue head is admitted in the same
`bus_departure` call, with occupancy true again. -/
theorem stop_occupancy_iff_nonempty (s0 s : StopState) (x y : Nat) (t : List Nat)
    (hreach : StopAdmReach s0 s) (h1 : s0.is_occupied = false)
    (h2 : s0.current_buses = ∅) :
    (s.is_occupied = true ↔ s.current_buses ≠ ∅)
    ∧ (s.current_buses = {x} → s.bus_queue = y :: t →
        (bus_departure s x).1.is_occupied = true
        ∧ (bus_departure s x).1.current_buses = {y}
        ∧ (bus_departure s x).1.bus_queue = t) := by
  refine ⟨(stopAdm_invariant s0 s hreach h1 h2).1, fun hx hq => ?_⟩
  unfold bus_departure
  rw [if_pos (by simp [hx])]
  dsimp only
  rw [hx]
  simp only [Finset.erase_singleton, if_pos rfl, hq]
  simp

/-- Witness: a fresh stop after bus 1 arrives (admitted) and bus 2 arrives
(queued); bus 1's departure admits bus 2. -/
theorem stop_occupancy_iff_nonempty_witness :
    ((bus_arrival (bus_arrival emptyStop 1).1 2).1.is_occupied = true
        ↔ (bus_arrival (bus_arrival emptyStop 1).1 2).1.current_buses ≠ ∅)
    ∧ ((bus_arrival (bus_arrival emptyStop 1).1 2).1.current_buses = {1} →
        (bus_arrival (bus_arrival emptyStop 1).1 2).1.bus_queue = 2 :: [] →
        (bus_departure (bus_arrival (bus_arrival emptyStop 1).1 2).1 1).1.is_occupied = true
        ∧ (bus_departure (bus_arrival (bus_arrival emptyStop 1).1 2).1 1).1.current_buses = {2}
        ∧ (bus_departure (bus_arrival (bus_arrival emptyStop 1).1 2).1 1).1.bus_queue = []) :=
  stop_occupancy_iff_nonempty emptyStop _ 1 2 []
    (Relation.ReflTransGen.tail
      (Relation.ReflTransGen.single (StopAdmStep.arrive 1)) (StopAdmStep.arrive 2))
    rfl rfl

/-- Claim C10: from a freshly constructed stop, after any sequence of
`bus_arrival`, `bus_departure` and queue-drain operations, at most one bus is
admitted; and whenever some bus is admitted, a further `bus_arrival` only
appends the newcomer to the rear of the FIFO queue and returns False. -/
theorem stop_at_most_one_admitted (s0 s : StopState) (b : Nat)
    (hreach : StopAdmReach s0 s) (h1 : s0.is_occupied = false)
    (h2 : s0.current_buses = ∅) (_h3 : s0.bus_queue = []) :
    s.current_buses.card ≤ 1
    ∧ (s.current_buses ≠ ∅ →
        bus_arrival s b = ({ s with bus_queue := s.bus_queue ++ [b] }, false)) := by
  refine ⟨(stopAdm_invariant s0 s hreach h1 h2).2, fun hne => ?_⟩
  unfold bus_arrival
  rw [if_pos ((stopAdm_invariant s0 s hreach h1 h2).1.mpr hne)]

/-- Witness: with bus 1 admitted at a fresh stop, an arriving bus 2 is only
queued. -/
theorem stop_at_most_one_admitted_witness :
    (bus_arrival emptyStop 1).1.current_buses.card ≤ 1
    ∧ ((bus_arrival emptyStop 1).1.current_buses ≠ ∅ →
        bus_arrival (bus_arrival emptyStop 1).1 2
          = ({ (bus_arrival emptyStop 1).1 with
                bus_queue := (bus_arrival emptyStop 1).1.bus_queue ++ [2] }, false)) :=
  stop_at_most_one_admitted emptyStop _ 2
    (Relation.ReflTransGen.single (StopAdmStep.arrive 1)) rfl rfl rfl

/-- Claim C6: in an advance step where the bus has a route and its current
stop occurs in the route's stop list, the bus moves to the stop at the next
index — wrapping to index 0 from the last stop, never terminating or
reversing —, the step reports success, the old stop's departure notification
is issued while `current_stop` still holds the old stop and the new stop's
arrival notification after it holds the new stop, and the two stops' states
undergo exactly `bus_departure` resp. `bus_arrival`. -/
theorem bus_advance_spec (w : SimState) (b r cur : Nat)
    (hr : (w.buses b).current_route = some r)
    (hs : (w.buses b).current_stop = some cur)
    (hmem : cur ∈ w.routes r) :
    ((move_to_next_stop w b).1.buses b).current_stop
        = some (nextStopOnRoute (w.routes r) cur)
    ∧ (move_to_next_stop w b).2.1 = true
    ∧ (move_to_next_stop w b).2.2 =
        [MoveEvent.departure cur (some cur),
         MoveEvent.arrival (nextStopOnRoute (w.routes r) cur)
           (some (nextStopOnRoute (w.routes r) cur))]
    ∧ (cur ≠ nextStopOnRoute (w.routes r) cur →
        (move_to_next_stop w b).1.stops cur = (bus_departure (w.stops cur) b).1
        ∧ (move_to_next_stop w b).1.stops (nextStopOnRoute (w.routes r) cur)
            = (bus_arrival (w.stops (nextStopOnRoute (w.routes r) cur)) b).1) := by
  have hne : w.routes r ≠ [] := List.ne_nil_of_mem hmem
  simp only [move_to_next_stop, hr, hs, if_neg hne, if_pos hmem,
    SimState.busArrivalAt, SimState.busDepartureAt]
  refine ⟨?_, ?_, ?_, ?_⟩
  · simp
  · trivial
  · simp
  · intro hcur
    constructor
    · simp only [setStopF_stops, setBusF_stops, if_neg hcur, if_true]
    · simp only [setStopF_stops, setBusF_stops, if_neg (Ne.symm hcur), if_true]

/-- Witness: in scenario A the bus advances from stop 0 to stop 1 on route
[0, 1], with departure notified before the move and arrival after. -/
theorem bus_advance_spec_witness :
    ((move_to_next_stop scenarioA 0).1.buses 0).current_stop
        = some (nextStopOnRoute (scenarioA.routes 0) 0)
    ∧ (move_to_next_stop scenarioA 0).2.1 = true
    ∧ (move_to_next_stop scenarioA 0).2.2 =
        [MoveEvent.departure 0 (some 0),
         MoveEvent.arrival (nextStopOnRoute (scenarioA.routes 0) 0)
           (some (nextStopOnRoute (scenarioA.routes 0) 0))]
    ∧ (0 ≠ nextStopOnRoute (scenarioA.routes 0) 0 →
        (move_to_next_stop scenarioA 0).1.stops 0 = (bus_departure (scenarioA.stops 0) 0).1
        ∧ (move_to_next_stop scenarioA 0).1.stops (nextStopOnRoute (scenarioA.routes 0) 0)
            = (bus_arrival (scenarioA.stops (nextStopOnRoute (scenarioA.routes 0) 0)) 0).1) :=
  bus_advance_spec scenarioA 0 0 0 rfl rfl (by decide)

/-- Claim C7 counterexample: in a boarding step the code boards a passenger
whose claimed destination stop set (the destination stop itself) does NOT
meet the remaining forward stops: eligibility is decided by
`destination.stop_list` — here stop 1's own associated list [2] — because the
plain-Stop branch of `_can_accept_passenger` is dead code. -/
theorem boarding_accepts_outside_spec_destination_set :
    (0 : Nat) ∈ ((handle_boarding wBoardCex 0).buses 0).passenger_list
    ∧ (destStopsSpec wBoardCex ((wBoardCex.passengers 0).destination)).filter
        (fun s => decide (s ∈ remaining_forward_stops wBoardCex 0)) = []
    ∧ (wBoardCex.passengers 0).destination = Dest.stop 1
    ∧ ¬ (1 : Nat) ∈ remaining_forward_stops wBoardCex 0 := by
  refine ⟨by decide, by decide, by decide, by decide⟩

theorem add_stops (w : SimState) (b p : Nat) :
    (bus_add_passenger w b p).1.stops = w.stops := by
  unfold bus_add_passenger
  split <;> rfl

theorem add_stations (w : SimState) (b p : Nat) :
    (bus_add_passenger w b p).1.stations = w.stations := by
  unfold bus_add_passenger
  split <;> rfl

theorem add_routes (w : SimState) (b p : Nat) :
    (bus_add_passenger w b p).1.routes = w.routes := by
  unfold bus_add_passenger
  split <;> rfl

theorem add_bus_route (w : SimState) (b p q : Nat) :
    ((bus_add_passenger w b p).1.buses q).current_route = (w.buses q).current_route := by
  unfold bus_add_passenger
  split
  · by_cases hq : q = b <;> simp [hq]
  · rfl

theorem add_bus_stop (w : SimState) (b p q : Nat) :
    ((bus_add_passenger w b p).1.buses q).current_stop = (w.buses q).current_stop := by
  unfold bus_add_passenger
  split
  · by_cases hq : q = b <;> simp [hq]
  · rfl

theorem add_bus_capacity (w : SimState) (b p q : Nat) :
    ((bus_add_passenger w b p).1.buses q).capacity = (w.buses q).capacity := by
  unfold bus_add_passenger
  split
  · by_cases hq : q = b <;> simp [hq]
  · rfl

theorem add_pass_dest (w : SimState) (b p q : Nat) :
    ((bus_add_passenger w b p).1.passengers q).destination = (w.passengers q).destination := by
  unfold bus_add_passenger
  split
  · by_cases hq : q = p <;> simp [hq]
  · rfl

theorem rem_passengers (w : SimState) (s p : Nat) :
    (stop_remove_passenger w s p).1.passengers = w.passengers := by
  unfold stop_remove_passenger
  split <;> rfl

theorem rem_buses (w : SimState) (s p : Nat) :
    (stop_remove_passenger w s p).1.buses = w.buses := by
  unfold stop_remove_passenger
  split <;> rfl

theorem rem_stations (w : SimState) (s p : Nat) :
    (stop_remove_passenger w s p).1.stations = w.stations := by
  unfold stop_remove_passenger
  split <;> rfl

theorem rem_routes (w : SimState) (s p : Nat) :
    (stop_remove_passenger w s p).1.routes = w.routes := by
  unfold stop_remove_passenger
  split <;> rfl

theorem rem_stop_list (w : SimState) (s p i : Nat) :
    ((stop_remove_passenger w s p).1.stops i).stop_list = (w.stops i).stop_list := by
  unfold stop_remove_passenger
  split
  · by_cases hi : i = s <;> simp [hi]
  · rfl

theorem destStopList_add (w : SimState) (b p : Nat) (d : Dest) :
    destStopList (bus_add_passenger w b p).1 d = destStopList w d := by
  cases d <;> simp [destStopList, add_stops, add_stations]

theorem destStopList_rem (w : SimState) (s p : Nat) (d : Dest) :
    destStopList (stop_remove_passenger w s p).1 d = destStopList w d := by
  cases d <;> simp [destStopList, rem_stop_list, rem_stations]

theorem remaining_forward_stops_add (w : SimState) (b0 p0 b : Nat) :
    remaining_forward_stops (bus_add_passenger w b0 p0).1 b = remaining_forward_stops w b := by
  unfold remaining_forward_stops
  rw [add_bus_route, add_bus_stop, add_routes]

theorem remaining_forward_stops_rem (w : SimState) (s0 p0 b : Nat) :
    remaining_forward_stops (stop_remove_passenger w s0 p0).1 b = remaining_forward_stops w b := by
  unfold remaining_forward_stops
  rw [rem_buses, rem_routes]

theorem can_accept_passenger_add (w : SimState) (b0 p0 b q : Nat) :
    can_accept_passenger (bus_add_passenger w b0 p0).1 b q = can_accept_passenger w b q := by
  unfold can_accept_passenger
  rw [add_bus_route, add_pass_dest, destStopList_add, remaining_forward_stops_add]

theorem can_accept_passenger_rem (w : SimState) (s0 p0 b q : Nat) :
    can_accept_passenger (stop_remove_passenger w s0 p0).1 b q = can_accept_passenger w b q := by
  unfold can_accept_passenger
  rw [rem_buses, rem_passengers, destStopList_rem, remaining_forward_stops_rem]

theorem add_bus_list (w : SimState) (b p : Nat)
    (hacc : can_accept_passengers w b 1 = true) :
    ((bus_add_passenger w b p).1.buses b).passenger_list
      = (w.buses b).passenger_list ++ [p] := by
  unfold bus_add_passenger
  rw [if_pos hacc]
  simp

theorem boarding_loop_spec (b : Nat) (queue : List Nat) :
    ∀ w : SimState,
      (w.buses b).passenger_list.length ≤ (w.buses b).capacity →
      ∃ boarded : List Nat,
        ((boarding_loop b queue w).buses b).passenger_list
            = (w.buses b).passenger_list ++ boarded
        ∧ boarded.Sublist queue
        ∧ (w.buses b).passenger_list.length + boarded.length ≤ (w.buses b).capacity
        ∧ ∀ p ∈ boarded, can_accept_passenger w b p = true := by
  induction queue with
  | nil =>
    intro w hlen
    exact ⟨[], by simp [boarding_loop], List.nil_sublist _, by simpa using hlen, by simp⟩
  | cons p rest ih =>
    intro w hlen
    simp only [boarding_loop]
    by_cases hcond : (can_accept_passengers w b 1 && can_accept_passenger w b p) = true
    · rw [if_pos hcond]
      rw [Bool.and_eq_true] at hcond
      have hacc : can_accept_passengers w b 1 = true := hcond.1
      have hcp : can_accept_passenger w b p = true := hcond.2
      have hlt : (w.buses b).passenger_list.length + 1 ≤ (w.buses b).capacity := by
        simpa [can_accept_passengers] using hacc
      have hradd : (bus_add_passenger w b p).2 = true := by
        unfold bus_add_passenger
        rw [if_pos hacc]
      rw [if_pos hradd]
      cases hstop : ((bus_add_passenger w b p).1.buses b).current_stop with
      | some cur =>
        simp only [hstop]
        have hlist2 : (((stop_remove_passenger (bus_add_passenger w b p).1 cur p).1).buses b).passenger_list
            = (w.buses b).passenger_list ++ [p] := by
          rw [rem_buses]
          exact add_bus_list w b p hacc
        have hcap2 : (((stop_remove_passenger (bus_add_passenger w b p).1 cur p).1).buses b).capacity
            = (w.buses b).capacity := by
          rw [rem_buses]
          exact add_bus_capacity w b p b
        obtain ⟨boarded, h1, h2, h3, h4⟩ :=
          ih (stop_remove_passenger (bus_add_passenger w b p).1 cur p).1
            (by rw [hlist2, hcap2]; simpa using hlt)
        refine ⟨p :: boarded, ?_, ?_, ?_, ?_⟩
        · rw [h1, hlist2]
          simp
        · exact List.Sublist.cons₂ p h2
        · rw [hlist2, hcap2] at h3
          simp only [List.length_append, List.length_singleton, List.length_cons] at h3 ⊢
          omega
        · intro q hq
          rcases List.mem_cons.mp hq with hq | hq
          · exact hq ▸ hcp
          · have := h4 q hq
            rwa [can_accept_passenger_rem, can_accept_passenger_add] at this
      | none =>
        simp only [hstop]
        have hlist2 : (((bus_add_passenger w b p).1).buses b).passenger_list
            = (w.buses b).passenger_list ++ [p] := add_bus_list w b p hacc
        have hcap2 : (((bus_add_passenger w b p).1).buses b).capacity
            = (w.buses b).capacity := add_bus_capacity w b p b
        obtain ⟨boarded, h1, h2, h3, h4⟩ :=
          ih (bus_add_passenger w b p).1 (by rw [hlist2, hcap2]; simpa using hlt)
        refine ⟨p :: boarded, ?_, ?_, ?_, ?_⟩
        · rw [h1, hlist2]
          simp
        · exact List.Sublist.cons₂ p h2
        · rw [hlist2, hcap2] at h3
          simp only [List.length_append, List.length_singleton, List.length_cons] at h3 ⊢
          omega
        · intro q hq
          rcases List.mem_cons.mp hq with hq | hq
          · exact hq ▸ hcp
          · have := h4 q hq
            rwa [can_accept_passenger_add] at this
    · rw [if_neg hcond]
      obtain ⟨boarded, h1, h2, h3, h4⟩ := ih w hlen
      exact ⟨boarded, h1, List.Sublist.cons p h2, h3, h4⟩

/-- Claim C7 (amended): in every boarding step (bus at a stop on its route,
passenger count within capacity), the passengers that board form an
order-preserving selection (sublist) of the stop's waiting list, at most the
remaining capacity many board, and each boarder passes
`_can_accept_passenger`, i.e. its destination's OWN `stop_list` (a station's
stops; for a plain Stop destination the stop's associated-stop list, empty as
constructed — not the stop itself) meets the remaining forward stops of the
bus's current route. -/
theorem handle_boarding_spec (w : SimState) (b cur : Nat)
    (hs : (w.buses b).current_stop = some cur)
    (hlen : (w.buses b).passenger_list.length ≤ (w.buses b).capacity) :
    ∃ boarded : List Nat,
      ((handle_boarding w b).buses b).passenger_list
          = (w.buses b).passenger_list ++ boarded
      ∧ boarded.Sublist ((w.stops cur).waiting_passengers)
      ∧ (w.buses b).passenger_list.length + boarded.length ≤ (w.buses b).capacity
      ∧ ∀ p ∈ boarded, can_accept_passenger w b p = true := by
  unfold handle_boarding
  by_cases hfull : bus_is_full w b = true
  · rw [if_pos hfull]
    exact ⟨[], by simp, List.nil_sublist _, by simpa using hlen, by simp⟩
  · rw [if_neg hfull, hs]
    exact boarding_loop_spec b ((w.stops cur).waiting_passengers) w hlen

/-- Witness: a concrete boarding step in which exactly passenger 0 boards. -/
theorem handle_boarding_spec_witness :
    ∃ boarded : List Nat,
      ((handle_boarding wBoardCex 0).buses 0).passenger_list
          = (wBoardCex.buses 0).passenger_list ++ boarded
      ∧ boarded.Sublist ((wBoardCex.stops 0).waiting_passengers)
      ∧ (wBoardCex.buses 0).passenger_list.length + boarded.length
          ≤ (wBoardCex.buses 0).capacity
      ∧ ∀ p ∈ boarded, can_accept_passenger wBoardCex 0 p = true :=
  handle_boarding_spec wBoardCex 0 0 rfl (by decide)

/-- Claim C4 counterexample: after subscriber 5 and then subscriber 3
subscribe to BUS_ARRIVAL, the registry is the unordered set containing 3 and
5; the enumeration [3, 5] is a possible iteration order of that Python set
(duplicate-free, same elements), yet it differs from the subscription order
[5, 3] — so delivery "in subscription order" is not what the code
guarantees. -/
theorem set_iteration_defies_subscription_order :
    validEnum (mkRegistry histC4 MessageType.busArrival) [3, 5]
    ∧ [3, 5] ≠ subscriptionOrderSpec histC4 MessageType.busArrival := by
  refine ⟨by decide, by decide⟩

theorem mem_subscribe (reg : Subscribers) (sub : Nat) (types : List MessageType)
    (k : MessageType) (s : Nat) :
    s ∈ subscribe reg sub types k ↔ s ∈ reg k ∨ (s = sub ∧ k ∈ types) := by
  induction types generalizing reg with
  | nil => simp [subscribe]
  | cons t ts ih =>
    have h1 : subscribe reg sub (t :: ts)
        = subscribe (Function.update reg t (insert sub (reg t))) sub ts := rfl
    rw [h1, ih]
    by_cases hk : k = t
    · subst hk
      rw [Function.update_same]
      simp only [Finset.mem_insert, List.mem_cons]
      tauto
    · rw [Function.update_noteq hk]
      simp only [List.mem_cons]
      tauto

theorem mem_registry_foldl (hist : List (Nat × List MessageType)) :
    ∀ (reg : Subscribers) (k : MessageType) (s : Nat),
      s ∈ (hist.foldl (fun r e => subscribe r e.1 e.2) reg) k
        ↔ s ∈ reg k ∨ subscribedIn hist s k := by
  induction hist with
  | nil =>
    intro reg k s
    simp [subscribedIn]
  | cons e es ih =>
    intro reg k s
    have h1 : (e :: es).foldl (fun r x => subscribe r x.1 x.2) reg
        = es.foldl (fun r x => subscribe r x.1 x.2) (subscribe reg e.1 e.2) := rfl
    rw [h1, ih, mem_subscribe]
    simp only [subscribedIn, List.mem_cons]
    constructor
    · rintro ((h | ⟨rfl, hk⟩) | ⟨x, hx, hxs, hxk⟩)
      · exact Or.inl h
      · exact Or.inr ⟨e, Or.inl rfl, rfl, hk⟩
      · exact Or.inr ⟨x, Or.inr hx, hxs, hxk⟩
    · rintro (h | ⟨x, (rfl | hx), hxs, hxk⟩)
      · exact Or.inl (Or.inl h)
      · exact Or.inl (Or.inr ⟨hxs.symm, hxk⟩)
      · exact Or.inr ⟨x, hx, hxs, hxk⟩

theorem mem_mkRegistry (hist : List (Nat × List MessageType)) (k : MessageType) (s : Nat) :
    s ∈ mkRegistry hist k ↔ subscribedIn hist s k := by
  have h := mem_registry_foldl hist (fun _ => ∅) k s
  simpa [mkRegistry] using h

/-- Claim C4 (amended): when the consumer dequeues a message, it delivers it
synchronously exactly once to every subscriber currently registered for the
message's kind — those that some earlier `subscribe` call registered for it —
and to nobody else; the iteration order over the subscriber set is
unspecified (a Python set), not the subscription order. -/
theorem delivery_exactly_once (hist : List (Nat × List MessageType))
    (enum : MessageType → List Nat) (m : BMessage) (s : Nat)
    (hv : validEnum (mkRegistry hist m.mtype) (enum m.mtype)) :
    (deliverOne enum m).count (m, s) = if subscribedIn hist s m.mtype then 1 else 0 := by
  have hcount : ∀ l : List Nat, ((l.map (fun x => (m, x))).count (m, s)) = l.count s := by
    intro l
    induction l with
    | nil => rfl
    | cons a l ih =>
      simp only [List.map_cons, List.count_cons, ih, beq_iff_eq, Prod.mk.injEq, true_and]
  rw [show (deliverOne enum m).count (m, s) = (enum m.mtype).count s from hcount (enum m.mtype)]
  by_cases hmem : s ∈ enum m.mtype
  · rw [if_pos, List.count_eq_one_of_mem hv.1 hmem]
    exact (mem_mkRegistry hist m.mtype s).mp (hv.2 ▸ List.mem_toFinset.mpr hmem)
  · rw [if_neg, List.count_eq_zero_of_not_mem hmem]
    intro hsub
    exact hmem (List.mem_toFinset.mp (hv.2.symm ▸ (mem_mkRegistry hist m.mtype s).mpr hsub))

/-- Witness: with the two-subscription history and the set enumerated as
[3, 5], subscriber 5 receives one copy of a BUS_ARRIVAL message. -/
theorem delivery_exactly_once_witness :
    (deliverOne (fun _ => [3, 5]) (BMessage.mk MessageType.busArrival 9 0)).count
        (BMessage.mk MessageType.busArrival 9 0, 5)
      = if subscribedIn histC4 5 (BMessage.mk MessageType.busArrival 9 0).mtype then 1 else 0 :=
  delivery_exactly_once histC4 (fun _ => [3, 5]) (BMessage.mk MessageType.busArrival 9 0) 5
    (by decide)

theorem publishSeq_eq (ms : List BMessage) : publishSeq ms = ms := by
  have aux : ∀ (q : List BMessage), List.foldl publish q ms = q ++ ms := by
    induction ms with
    | nil => intro q; simp
    | cons m ms ih =>
      intro q
      simp only [List.foldl_cons, ih, publish]
      simp
  simpa [publishSeq] using aux []

theorem observed_append (enum : MessageType → List Nat) (s : Nat) (q1 q2 : List BMessage) :
    observed enum s (q1 ++ q2) = observed enum s q1 ++ observed enum s q2 := by
  unfold observed processAll
  rw [List.flatMap_append, List.filterMap_append]

theorem observed_cons (enum : MessageType → List Nat) (s : Nat) (m : BMessage)
    (q : List BMessage) (hnd : (enum m.mtype).Nodup) :
    observed enum s (m :: q)
      = (if s ∈ enum m.mtype then [m] else []) ++ observed enum s q := by
  unfold observed processAll
  rw [List.flatMap_cons, List.filterMap_append]
  congr 1
  unfold deliverOne
  have aux : ∀ l : List Nat, l.Nodup →
      (l.map (fun x => (m, x))).filterMap
          (fun ms => if ms.2 = s then some ms.1 else none)
        = if s ∈ l then [m] else [] := by
    intro l
    induction l with
    | nil => simp
    | cons a l ih =>
      intro hnd'
      have ha : a ∉ l := (List.nodup_cons.mp hnd').1
      have hl : l.Nodup := (List.nodup_cons.mp hnd').2
      by_cases has : a = s
      · subst has
        simp [List.filterMap_cons, ih hl, ha]
      · simp [List.filterMap_cons, has, ih hl, Ne.symm has]
  exact aux (enum m.mtype) hnd

/-- Claim C5: the consumer loop drains the single FIFO queue in exact publish
order: in the delivery trace, every delivery of a message published earlier
precedes every delivery of a message published later (second conjunct), so a
subscriber registered for both m1 and m2 — published in that order, by any
senders — observes m1 before m2 (first conjunct). -/
theorem broker_global_fifo (enum : MessageType → List Nat) (subs : Subscribers)
    (s : Nat) (q1 q2 q3 : List BMessage) (m1 m2 : BMessage)
    (hv : ∀ k, validEnum (subs k) (enum k))
    (h1 : s ∈ subs m1.mtype) (h2 : s ∈ subs m2.mtype) :
    observed enum s (publishSeq (q1 ++ m1 :: q2 ++ m2 :: q3))
      = observed enum s q1 ++ m1 :: (observed enum s q2 ++ m2 :: observed enum s q3)
    ∧ processAll enum (publishSeq (q1 ++ m1 :: q2 ++ m2 :: q3))
      = processAll enum q1 ++ deliverOne enum m1 ++ processAll enum q2
        ++ deliverOne enum m2 ++ processAll enum q3 := by
  rw [publishSeq_eq]
  have hm1 : s ∈ enum m1.mtype := by
    have h : s ∈ (enum m1.mtype).toFinset := by
      rw [(hv m1.mtype).2]
      exact h1
    exact List.mem_toFinset.mp h
  have hm2 : s ∈ enum m2.mtype := by
    have h : s ∈ (enum m2.mtype).toFinset := by
      rw [(hv m2.mtype).2]
      exact h2
    exact List.mem_toFinset.mp h
  constructor
  · rw [observed_append, observed_append, observed_cons _ _ _ _ (hv m1.mtype).1,
      observed_cons _ _ _ _ (hv m2.mtype).1, if_pos hm1, if_pos hm2]
    simp
  · unfold processAll
    rw [List.flatMap_append, List.flatMap_append, List.flatMap_cons, List.flatMap_cons]
    simp [List.append_assoc]

/-- Witness: two BUS_ARRIVAL messages published in order are observed in
order by subscriber 4. -/
theorem broker_global_fifo_witness :
    observed (fun _ => [4]) 4
        (publishSeq ([] ++ BMessage.mk MessageType.busArrival 1 0
          :: [] ++ BMessage.mk MessageType.busArrival 2 1 :: []))
      = observed (fun _ => [4]) 4 []
        ++ BMessage.mk MessageType.busArrival 1 0
          :: (observed (fun _ => [4]) 4 []
            ++ BMessage.mk MessageType.busArrival 2 1 :: observed (fun _ => [4]) 4 [])
    ∧ processAll (fun _ => [4])
        (publishSeq ([] ++ BMessage.mk MessageType.busArrival 1 0
          :: [] ++ BMessage.mk MessageType.busArrival 2 1 :: []))
      = processAll (fun _ => [4]) [] ++ deliverOne (fun _ => [4]) (BMessage.mk MessageType.busArrival 1 0)
        ++ processAll (fun _ => [4]) [] ++ deliverOne (fun _ => [4]) (BMessage.mk MessageType.busArrival 2 1)
        ++ processAll (fun _ => [4]) [] :=
  broker_global_fifo (fun _ => [4]) (fun _ => {4}) 4 [] [] []
    (BMessage.mk MessageType.busArrival 1 0) (BMessage.mk MessageType.busArrival 2 1)
    (by decide) (by decide) (by decide)
